import Mathlib

/-!
Shallow embedding of `src/backend/app.py`, a minimal chat relay built on
FastAPI, pydantic and one SQL table.  Channels (websockets) are modelled as
natural-number identifiers; the database clock is an abstract natural number;
send failures during a broadcast are modelled by a predicate on channels.
-/

namespace ChatApp

/-- Remove leading and trailing whitespace characters from a character
list: drop the leading whitespace run, then the trailing one. -/
def stripChars (cs : List Char) : List Char :=
  ((cs.dropWhile Char.isWhitespace).reverse.dropWhile Char.isWhitespace).reverse

/-- Model of pydantic `strip_whitespace=True`: remove leading and trailing
whitespace, as `str.strip` does. -/
def stripWs (s : String) : String := String.mk (stripChars s.data)

/-- Model of the length bounds `min_length=1, max_length=255` of `constr`,
checked on the already-stripped value. -/
def okLen (s : String) : Bool := 1 ≤ s.length && s.length ≤ 255

/-- Pydantic schema `MessageIn`: a validated request body, fields already
whitespace-stripped. -/
structure MessageIn where
  author : String
  message : String

/-- Pydantic validation of the `MessageIn` body: strip both fields, then
enforce the 1..255 length bounds on the stripped values; `none` models the
framework rejecting the request with a 422 before the handler runs. -/
def validateMessageIn (author message : String) : Option MessageIn :=
  if okLen (stripWs author) && okLen (stripWs message) then
    some ⟨stripWs author, stripWs message⟩
  else none

/-- A row of the `messages` table (class `Message`): `timestamp` is
`Option Nat`, with `none` modelling SQL NULL and `some t` a server-assigned
time value. The auto-assigned `id` is the position in the store list. -/
structure Row where
  author : String
  message : String
  timestamp : Option Nat

/-- Pydantic schema `MessageOut`: the serialized form returned by
`GET /get/msg`, with the timestamp already rendered as text. -/
structure MessageOut where
  author : String
  message : String
  timestamp : String

/-- Model of `datetime.isoformat()` applied to the abstract time value: an
ISO-8601-style textual rendering of the server-assigned time. -/
def isoformat (t : Nat) : String := "1970-01-01T00:00:00+" ++ toString t

/-- Serialization of one row by `get_messages`:
`timestamp = m.timestamp.isoformat() if m.timestamp else ""`. -/
def serializeRow (r : Row) : MessageOut :=
  { author := r.author,
    message := r.message,
    timestamp := match r.timestamp with
      | some t => isoformat t
      | none => "" }

/-- The whole server state: the persisted `messages` table, the database
clock used for `func.now()`, and the in-memory registry
`ConnectionManager.active_connections`. -/
structure ServerState where
  messages : List Row
  clock : Nat
  conns : List Nat

/-- `ConnectionManager.connect`: `accept()` the websocket then append it to
`active_connections`. -/
def connect (conns : List Nat) (websocket : Nat) : List Nat :=
  conns ++ [websocket]

/-- `ConnectionManager.disconnect`:
`if websocket in self.active_connections: self.active_connections.remove(websocket)`.
Python `list.remove` deletes the first occurrence only. -/
def disconnect (conns : List Nat) (websocket : Nat) : List Nat :=
  if websocket ∈ conns then conns.erase websocket else conns

/-- `ConnectionManager.broadcast`: loop over `active_connections` trying
`send_json(message)` on each; a connection whose send raises
(`fails c = true`) is appended to `to_remove`; after the sweep every
collected connection is passed to `disconnect`.  Returns the new registry
and the list of attempted deliveries `(connection, payload)` in sweep
order. -/
def broadcast (fails : Nat → Bool) (conns : List Nat)
    (message : List (String × String)) :
    List Nat × List (Nat × List (String × String)) :=
  let attempts := conns.map (fun c => (c, message))
  let to_remove := conns.filter (fun c => fails c)
  (to_remove.foldl (fun cs c => disconnect cs c) conns, attempts)

/-- An HTTP response: status code and a flat JSON-object body modelled as an
association list. -/
structure Response where
  status : Nat
  body : List (String × String)

/-- Observable events of one request, in order: the SQL insert, the commit,
and one `send_json` attempt per registered channel. -/
inductive Event where
  | insertEv : Row → Event
  | commitEv : Event
  | sendEv : Nat → List (String × String) → Event

/-- `POST /post/send` (`post_message`): pydantic validation happens before
the handler runs (`none` gives a 422 with no side effects); on valid input
the handler inserts one row with the server-assigned timestamp, commits,
then broadcasts the author/message payload (no timestamp key) and returns
200 with detail "Message sent". -/
def post_message (fails : Nat → Bool) (author message : String)
    (st : ServerState) : Response × ServerState × List Event :=
  match validateMessageIn author message with
  | none => (⟨422, [("detail", "validation error")]⟩, st, [])
  | some msg =>
    (⟨200, [("detail", "Message sent")]⟩,
     { messages := st.messages ++ [⟨msg.author, msg.message, some st.clock⟩],
       clock := st.clock + 1,
       conns := (broadcast fails st.conns
         [("author", msg.author), ("message", msg.message)]).1 },
     [Event.insertEv ⟨msg.author, msg.message, some st.clock⟩, Event.commitEv]
       ++ (broadcast fails st.conns
            [("author", msg.author), ("message", msg.message)]).2.map
          (fun a => Event.sendEv a.1 a.2))

/-- The comparison used by `order_by(Message.timestamp.asc())`: ascending on
time values, SQL NULLs last. -/
def tsLe : Option Nat → Option Nat → Bool
  | some a, some b => a ≤ b
  | some _, none => true
  | none, some _ => false
  | none, none => true

/-- Row comparison induced by `tsLe` on the `timestamp` column. -/
def rowLe (r s : Row) : Bool := tsLe r.timestamp s.timestamp

/-- The rows produced by `select(Message).order_by(Message.timestamp.asc())`. -/
def get_messages_rows (st : ServerState) : List Row :=
  st.messages.mergeSort rowLe

/-- `GET /get/msg` (`get_messages`): all rows ordered by ascending
timestamp, each serialized to a `MessageOut`. -/
def get_messages (st : ServerState) : List MessageOut :=
  (get_messages_rows st).map serializeRow

/-- The operations the program can perform on the server state: a
submission, a history read, and the websocket endpoint registering or
unregistering a channel. -/
inductive Op where
  | postSendOp : (Nat → Bool) → String → String → Op
  | getMsgOp : Op
  | wsConnectOp : Nat → Op
  | wsDisconnectOp : Nat → Op

/-- State transition of one operation. `GET /get/msg` only reads. -/
def step (op : Op) (st : ServerState) : ServerState :=
  match op with
  | .postSendOp fails a m => (post_message fails a m st).2.1
  | .getMsgOp => st
  | .wsConnectOp c => { st with conns := connect st.conns c }
  | .wsDisconnectOp c => { st with conns := disconnect st.conns c }

/-! ### Helper lemmas -/

lemma disconnect_cons_of_ne (c x : Nat) (rest : List Nat) (h : x ≠ c) :
    disconnect (c :: rest) x = c :: disconnect rest x := by
  unfold disconnect
  by_cases hx : x ∈ rest
  · simp [hx, h, List.erase_cons_tail, Ne.symm h]
  · simp [hx, h]

lemma foldl_disconnect_cons_of_ne (c : Nat) (R : List Nat)
    (h : ∀ x ∈ R, x ≠ c) :
    ∀ rest : List Nat,
      R.foldl (fun cs x => disconnect cs x) (c :: rest)
        = c :: R.foldl (fun cs x => disconnect cs x) rest := by
  induction R with
  | nil => intro rest; rfl
  | cons x R ih =>
    intro rest
    have hxc : x ≠ c := h x (List.mem_cons_self x R)
    have hR : ∀ y ∈ R, y ≠ c := fun y hy => h y (List.mem_cons_of_mem x hy)
    simp only [List.foldl_cons, disconnect_cons_of_ne c x rest hxc]
    exact ih hR (disconnect rest x)

lemma foldl_disconnect_filter (fails : Nat → Bool) (l : List Nat) :
    (l.filter (fun c => fails c)).foldl (fun cs c => disconnect cs c) l
      = l.filter (fun c => !fails c) := by
  induction l with
  | nil => rfl
  | cons c rest ih =>
    by_cases hc : fails c = true
    · have h1 : (c :: rest).filter (fun x => fails x)
          = c :: rest.filter (fun x => fails x) := by simp [hc]
      have h2 : disconnect (c :: rest) c = rest := by
        simp [disconnect, List.mem_cons]
      rw [h1, List.foldl_cons, h2, ih]
      simp [hc]
    · have hcf : fails c = false := by simpa using hc
      have h1 : (c :: rest).filter (fun x => fails x)
          = rest.filter (fun x => fails x) := by simp [hcf]
      have hall : ∀ x ∈ rest.filter (fun y => fails y), x ≠ c := by
        intro x hx hxc
        have := List.of_mem_filter hx
        rw [hxc, hcf] at this
        exact Bool.false_ne_true this
      rw [h1, foldl_disconnect_cons_of_ne c _ hall rest, ih]
      simp [hcf]

lemma broadcast_fst (fails : Nat → Bool) (conns : List Nat)
    (payload : List (String × String)) :
    (broadcast fails conns payload).1 = conns.filter (fun c => !fails c) :=
  foldl_disconnect_filter fails conns

lemma broadcast_snd (fails : Nat → Bool) (conns : List Nat)
    (payload : List (String × String)) :
    (broadcast fails conns payload).2 = conns.map (fun c => (c, payload)) :=
  rfl

lemma validate_valid (author message : String)
    (ha : okLen (stripWs author) = true) (hm : okLen (stripWs message) = true) :
    validateMessageIn author message = some ⟨stripWs author, stripWs message⟩ := by
  unfold validateMessageIn
  simp [ha, hm]

lemma post_message_valid (fails : Nat → Bool) (author message : String)
    (st : ServerState)
    (ha : okLen (stripWs author) = true) (hm : okLen (stripWs message) = true) :
    post_message fails author message st =
      (⟨200, [("detail", "Message sent")]⟩,
       { messages :=
           st.messages ++ [⟨stripWs author, stripWs message, some st.clock⟩],
         clock := st.clock + 1,
         conns := st.conns.filter (fun c => !fails c) },
       [Event.insertEv ⟨stripWs author, stripWs message, some st.clock⟩,
        Event.commitEv]
         ++ st.conns.map (fun c =>
              Event.sendEv c
                [("author", stripWs author), ("message", stripWs message)])) := by
  have hv := validate_valid author message ha hm
  simp only [post_message, hv, broadcast_fst, broadcast_snd, List.map_map]
  rfl

lemma count_pair_map (payload : List (String × String)) (l : List Nat)
    (c : Nat) :
    (l.map (fun x => (x, payload))).count (c, payload) = l.count c := by
  induction l with
  | nil => rfl
  | cons x l ih => simp [List.count_cons, ih, Prod.ext_iff]

lemma rowLe_trans : ∀ (a b c : Row), rowLe a b → rowLe b c → rowLe a c := by
  intro a b c
  unfold rowLe tsLe
  rcases a.timestamp with _ | x <;> rcases b.timestamp with _ | y <;>
    rcases c.timestamp with _ | z <;> simp <;> omega

lemma rowLe_total : ∀ (a b : Row), rowLe a b || rowLe b a := by
  intro a b
  unfold rowLe tsLe
  rcases a.timestamp with _ | x <;> rcases b.timestamp with _ | y <;>
    simp <;> omega

/-! ### Claims -/

/-- C1: when author or message is empty after trimming, or longer than 255
characters after trimming, POST /post/send returns a 422 validation failure
with no side effects: the server state is unchanged, no insert, commit or
send event occurs, and a subsequent GET /get/msg returns exactly what it
returned before the request. -/
theorem c1_invalid_input_rejected_no_side_effects
    (fails : Nat → Bool) (author message : String) (st : ServerState)
    (h : okLen (stripWs author) = false ∨ okLen (stripWs message) = false) :
    (post_message fails author message st).1.status = 422
    ∧ (post_message fails author message st).2.1 = st
    ∧ (post_message fails author message st).2.2 = []
    ∧ get_messages (post_message fails author message st).2.1
        = get_messages st := by
  have hv : validateMessageIn author message = none := by
    unfold validateMessageIn
    rcases h with h | h <;> simp [h]
  simp [post_message, hv]

theorem c1_witness :
    (okLen (stripWs "  ") = false ∨ okLen (stripWs "x") = false)
    ∧ ((post_message (fun _ => false) "  " "x" ⟨[], 0, []⟩).1.status = 422
       ∧ (post_message (fun _ => false) "  " "x" ⟨[], 0, []⟩).2.1 = ⟨[], 0, []⟩
       ∧ (post_message (fun _ => false) "  " "x" ⟨[], 0, []⟩).2.2 = []
       ∧ get_messages (post_message (fun _ => false) "  " "x" ⟨[], 0, []⟩).2.1
           = get_messages ⟨[], 0, []⟩) :=
  ⟨Or.inl (by decide),
   c1_invalid_input_rejected_no_side_effects (fun _ => false) "  " "x"
     ⟨[], 0, []⟩ (Or.inl (by decide))⟩

/-- C2: for every valid (author, message) pair within the length bounds,
POST /post/send followed by GET /get/msg yields a list containing an entry
whose author and message match the (stripped) submission, and the row list
underlying that response is non-decreasing by timestamp. -/
theorem c2_valid_post_then_get_contains_match
    (fails : Nat → Bool) (author message : String) (st : ServerState)
    (ha : okLen (stripWs author) = true) (hm : okLen (stripWs message) = true) :
    (∃ out ∈ get_messages (post_message fails author message st).2.1,
        out.author = stripWs author ∧ out.message = stripWs message)
    ∧ List.Pairwise (fun r s => rowLe r s = true)
        (get_messages_rows (post_message fails author message st).2.1) := by
  rw [post_message_valid fails author message st ha hm]
  constructor
  · refine ⟨serializeRow ⟨stripWs author, stripWs message, some st.clock⟩,
      ?_, rfl, rfl⟩
    unfold get_messages get_messages_rows
    apply List.mem_map_of_mem
    rw [List.mem_mergeSort]
    exact List.mem_append_right _ (List.mem_singleton_self _)
  · exact List.sorted_mergeSort rowLe_trans rowLe_total _

theorem c2_witness :
    okLen (stripWs "alice") = true ∧ okLen (stripWs "hi") = true
    ∧ ((∃ out ∈ get_messages
          (post_message (fun _ => false) "alice" "hi" ⟨[], 0, []⟩).2.1,
          out.author = stripWs "alice" ∧ out.message = stripWs "hi")
       ∧ List.Pairwise (fun r s => rowLe r s = true)
          (get_messages_rows
            (post_message (fun _ => false) "alice" "hi" ⟨[], 0, []⟩).2.1)) :=
  ⟨by decide, by decide,
   c2_valid_post_then_get_contains_match (fun _ => false) "alice" "hi"
     ⟨[], 0, []⟩ (by decide) (by decide)⟩

/-- C3: broadcast attempts delivery to every registered channel, in
registry order, whether or not other channels fail; failing channels are
removed only by the removal pass that runs after the sweep, leaving exactly
the non-failing channels registered. -/
theorem c3_broadcast_attempts_all_removes_failed_after_sweep
    (fails : Nat → Bool) (conns : List Nat)
    (payload : List (String × String)) :
    (broadcast fails conns payload).2 = conns.map (fun c => (c, payload))
    ∧ (broadcast fails conns payload).1
        = conns.filter (fun c => !fails c) :=
  ⟨broadcast_snd fails conns payload, broadcast_fst fails conns payload⟩

/-- C4: GET /get/msg returns every stored message (the returned rows are a
permutation of the store), ordered non-decreasingly by timestamp, each
serialized to author, message and a textual timestamp that is the
isoformat rendering when the stored timestamp is present and the empty
string when it is null. -/
theorem c4_get_messages_returns_all_sorted_serialized (st : ServerState) :
    get_messages st = (get_messages_rows st).map serializeRow
    ∧ List.Perm (get_messages_rows st) st.messages
    ∧ List.Pairwise (fun r s => rowLe r s = true) (get_messages_rows st)
    ∧ (∀ r : Row, (serializeRow r).author = r.author
        ∧ (serializeRow r).message = r.message)
    ∧ (∀ a m : String, serializeRow ⟨a, m, none⟩ = ⟨a, m, ""⟩)
    ∧ (∀ (a m : String) (t : Nat),
        serializeRow ⟨a, m, some t⟩ = ⟨a, m, isoformat t⟩) :=
  ⟨rfl, List.mergeSort_perm st.messages rowLe,
   List.sorted_mergeSort rowLe_trans rowLe_total st.messages,
   fun _ => ⟨rfl, rfl⟩, fun _ _ => rfl, fun _ _ _ => rfl⟩

/-- C5: on a valid submission the event trace is exactly the insert of the
new row, then the commit, then one send per registered channel, each
carrying exactly the author and message keys of the submission: the
broadcaster runs only after the insert and the commit, and the payload has
no timestamp key. -/
theorem c5_broadcast_payload_after_insert_and_commit
    (fails : Nat → Bool) (author message : String) (st : ServerState)
    (ha : okLen (stripWs author) = true) (hm : okLen (stripWs message) = true) :
    (post_message fails author message st).2.2
      = [Event.insertEv ⟨stripWs author, stripWs message, some st.clock⟩,
         Event.commitEv]
        ++ st.conns.map (fun c =>
             Event.sendEv c
               [("author", stripWs author), ("message", stripWs message)])
    ∧ ([("author", stripWs author), ("message", stripWs message)].map
        Prod.fst = ["author", "message"])
    ∧ "timestamp" ∉ (["author", "message"] : List String) := by
  rw [post_message_valid fails author message st ha hm]
  exact ⟨rfl, rfl, by decide⟩

theorem c5_witness :
    okLen (stripWs "alice") = true ∧ okLen (stripWs "hi") = true
    ∧ ((post_message (fun _ => false) "alice" "hi" ⟨[], 0, [7]⟩).2.2
        = [Event.insertEv ⟨stripWs "alice", stripWs "hi", some 0⟩,
           Event.commitEv]
          ++ [7].map (fun c =>
               Event.sendEv c
                 [("author", stripWs "alice"), ("message", stripWs "hi")])
       ∧ ([("author", stripWs "alice"), ("message", stripWs "hi")].map
           Prod.fst = ["author", "message"])
       ∧ "timestamp" ∉ (["author", "message"] : List String)) :=
  ⟨by decide, by decide,
   c5_broadcast_payload_after_insert_and_commit (fun _ => false) "alice" "hi"
     ⟨[], 0, [7]⟩ (by decide) (by decide)⟩

/-- C6 counterexample: on the registry [0, 0], in which channel 0 is
registered twice, unregistering 0 twice leaves [] while unregistering it
once leaves [0], so calling disconnect twice is not the same as calling it
once. -/
theorem c6_counterexample :
    ¬ (disconnect (disconnect [0, 0] 0) 0 = disconnect [0, 0] 0) := by
  decide

/-- C6 (amended): unregister removes the first occurrence of the channel if
present and is a no-op when the channel is absent; whenever the channel
occurs at most once in the registry (in particular, always, unless the same
channel was registered twice), calling it twice in a row leaves the same
registry state as calling it once; with duplicate registrations each call
removes one more occurrence. -/
theorem c6_unregister_idempotent_without_duplicates
    (conns : List Nat) (c : Nat) (h : conns.count c ≤ 1) :
    disconnect (disconnect conns c) c = disconnect conns c := by
  by_cases hc : c ∈ conns
  · have h1 : conns.count c = 1 :=
      Nat.le_antisymm h (List.count_pos_iff.mpr hc)
    have h2 : (conns.erase c).count c = 0 := by
      rw [List.count_erase_self, h1]
    have h3 : c ∉ conns.erase c := List.count_eq_zero.mp h2
    simp [disconnect, hc, h3]
  · simp [disconnect, hc]

theorem c6_witness :
    ([3, 4] : List Nat).count 3 ≤ 1
    ∧ disconnect (disconnect [3, 4] 3) 3 = disconnect [3, 4] 3 :=
  ⟨by decide, c6_unregister_idempotent_without_duplicates [3, 4] 3 (by decide)⟩

/-- C7: a delivery failure during the broadcast is never surfaced to the
sender: on valid input POST /post/send returns the 200 success
acknowledgment whatever channels fail, the only registry effect is that the
failing channels are dropped, and the row is still stored. -/
theorem c7_delivery_error_never_surfaced
    (fails : Nat → Bool) (author message : String) (st : ServerState)
    (ha : okLen (stripWs author) = true) (hm : okLen (stripWs message) = true) :
    (post_message fails author message st).1
      = ⟨200, [("detail", "Message sent")]⟩
    ∧ (post_message fails author message st).2.1.conns
        = st.conns.filter (fun c => !fails c)
    ∧ (post_message fails author message st).2.1.messages
        = st.messages ++ [⟨stripWs author, stripWs message, some st.clock⟩] := by
  rw [post_message_valid fails author message st ha hm]
  exact ⟨rfl, rfl, rfl⟩

theorem c7_witness :
    okLen (stripWs "alice") = true ∧ okLen (stripWs "hi") = true
    ∧ ((post_message (fun c => c == 1) "alice" "hi" ⟨[], 0, [1, 2]⟩).1
        = ⟨200, [("detail", "Message sent")]⟩
       ∧ (post_message (fun c => c == 1) "alice" "hi" ⟨[], 0, [1, 2]⟩).2.1.conns
           = [1, 2].filter (fun c => !(c == 1))
       ∧ (post_message (fun c => c == 1) "alice" "hi" ⟨[], 0, [1, 2]⟩).2.1.messages
           = [] ++ [⟨stripWs "alice", stripWs "hi", some 0⟩]) :=
  ⟨by decide, by decide,
   c7_delivery_error_never_surfaced (fun c => c == 1) "alice" "hi"
     ⟨[], 0, [1, 2]⟩ (by decide) (by decide)⟩

/-- C8: on every valid input POST /post/send returns status 200 with body
consisting of the single key detail mapped to "Message sent" — a constant
acknowledgment that contains neither the stored row nor its id. -/
theorem c8_success_acknowledgment
    (fails : Nat → Bool) (author message : String) (st : ServerState)
    (ha : okLen (stripWs author) = true) (hm : okLen (stripWs message) = true) :
    (post_message fails author message st).1
      = ⟨200, [("detail", "Message sent")]⟩ := by
  rw [post_message_valid fails author message st ha hm]

theorem c8_witness :
    okLen (stripWs "a") = true ∧ okLen (stripWs "b") = true
    ∧ (post_message (fun _ => false) "a" "b" ⟨[], 0, []⟩).1
        = ⟨200, [("detail", "Message sent")]⟩ :=
  ⟨by decide, by decide,
   c8_success_acknowledgment (fun _ => false) "a" "b" ⟨[], 0, []⟩
     (by decide) (by decide)⟩

/-- C9: the message store is append-only: after any operation the store is
either unchanged, or the operation was a submission and the store is the
old store with exactly one new row appended at the end — so every
previously stored message is intact and no update or delete path exists. -/
theorem c9_messages_append_only (op : Op) (st : ServerState) :
    (step op st).messages = st.messages
    ∨ ∃ fails author message, op = Op.postSendOp fails author message
        ∧ (step op st).messages
            = st.messages
              ++ [⟨stripWs author, stripWs message, some st.clock⟩] := by
  cases op with
  | postSendOp fails a m =>
    rcases hv : validateMessageIn a m with _ | msg
    · left
      simp [step, post_message, hv]
    · right
      have hmsg : msg = ⟨stripWs a, stripWs m⟩ := by
        unfold validateMessageIn at hv
        split at hv
        · injection hv with h
          exact h.symm
        · exact absurd hv (by simp)
      refine ⟨fails, a, m, rfl, ?_⟩
      simp [step, post_message, hv, hmsg]
  | getMsgOp => left; rfl
  | wsConnectOp c => left; rfl
  | wsDisconnectOp c => left; rfl

/-- C10: the registry admits duplicates: two connect calls for the same
channel append it twice, a broadcast then attempts delivery of the payload
to that channel twice, a single disconnect removes only one occurrence, and
the channel — still registered — is still attempted by the next
broadcast. -/
theorem c10_duplicate_registration
    (conns : List Nat) (c : Nat) (payload : List (String × String)) :
    (connect (connect conns c) c).count c = conns.count c + 2
    ∧ ((broadcast (fun _ => false) (connect (connect conns c) c)
          payload).2).count (c, payload) = conns.count c + 2
    ∧ (disconnect (connect (connect conns c) c) c).count c
        = conns.count c + 1
    ∧ (c, payload)
        ∈ (broadcast (fun _ => false)
            (disconnect (connect (connect conns c) c) c) payload).2 := by
  have hcount : (connect (connect conns c) c).count c = conns.count c + 2 := by
    simp [connect]
  have hmem : c ∈ connect (connect conns c) c := by simp [connect]
  have hdcount : (disconnect (connect (connect conns c) c) c).count c
      = conns.count c + 1 := by
    rw [show disconnect (connect (connect conns c) c) c
        = (connect (connect conns c) c).erase c from by simp [disconnect, hmem],
      List.count_erase_self, hcount]
    omega
  refine ⟨hcount, ?_, hdcount, ?_⟩
  · rw [broadcast_snd, count_pair_map, hcount]
  · rw [broadcast_snd]
    apply List.mem_map_of_mem
    exact List.count_pos_iff.mp (by rw [hdcount]; exact Nat.succ_pos _)

end ChatApp
